import Mathlib

/-!
Shallow embedding of the dota2project core (`dota_analysis.py`): the
persistent HTTP-response cache (`Dota2Cache`) and the aggregation engine
(`Matches`), together with theorems settling the specification claims.

Modelling conventions:
* machine time is `Nat` (seconds); `time.time()` is passed in as an explicit
  `current_time` argument;
* the network is a scripted list of `(status, body)` responses consumed in
  order; each retry backoff (`time.sleep(10)`) is counted in a `sleeps`
  counter, so total sleep time is `10 * sleeps`;
* Python dicts are association lists with in-place update (`assocSet`) and
  first-match lookup (`assocFind`), matching dict key semantics;
* the cache payload type is a parameter `V` standing for arbitrary JSON;
* fallible paths (HTTP errors, `InterruptedError` cancellation) are explicit
  result constructors instead of exceptions;
* float rounding (`round(x, 2)`) is not modelled: rates and means are kept
  as exact rationals, which no claim's truth value depends on.
-/

namespace Dota

/-- Python dict lookup `d[k]` / `k in d`: first binding for the key. -/
def assocFind {κ α : Type} [DecidableEq κ] : List (κ × α) → κ → Option α
  | [], _ => none
  | (k, v) :: rest, k0 => if k = k0 then some v else assocFind rest k0

/-- Python dict update `d[k] = v`: replace in place, else append. -/
def assocSet {κ α : Type} [DecidableEq κ] : List (κ × α) → κ → α → List (κ × α)
  | [], k0, v0 => [(k0, v0)]
  | (k, v) :: rest, k0, v0 =>
    if k = k0 then (k0, v0) :: rest else (k, v) :: assocSet rest k0 v0

/-- The persisted cache file (`cache.json`): the current two-section format,
the legacy bare-mapping format, or an unreadable file. -/
inductive CacheFile (V : Type) where
  | modern (cache : List (String × V)) (timestamps : List (String × Nat))
  | legacy (data : List (String × V))
  | corrupt
deriving DecidableEq

/-- In-memory state of `Dota2Cache`: the payload mapping, the per-URL fetch
timestamps, and the count of writes not yet flushed. -/
structure CacheState (V : Type) where
  cache : List (String × V)
  cache_timestamps : List (String × Nat)
  unsaved_count : Nat
deriving DecidableEq

/-- `Dota2Cache._load_cache` plus the `cache_timestamps` initialisation from
`__init__`: a missing or unreadable file gives an empty store; the legacy
format gives payloads with no timestamps. -/
def load_cache {V : Type} : Option (CacheFile V) → List (String × V) × List (String × Nat)
  | some (.modern c t) => (c, t)
  | some (.legacy d) => (d, [])
  | some .corrupt => ([], [])
  | none => ([], [])

/-- `Dota2Cache.__init__`: fresh state loaded from the persisted file. -/
def initCache {V : Type} (file : Option (CacheFile V)) : CacheState V :=
  ⟨(load_cache file).1, (load_cache file).2, 0⟩

/-- `Dota2Cache.flush`: no-op when no writes are pending; otherwise write a
temporary file and atomically rename it over the destination, discarding the
temporary file (and keeping the old snapshot) when writing fails; in either
case the unsaved-write counter is reset to 0 afterwards. `writeFails` scripts
the `except Exception` branch. -/
def flush {V : Type} (st : CacheState V) (file : Option (CacheFile V)) (writeFails : Bool) :
    CacheState V × Option (CacheFile V) :=
  if st.unsaved_count = 0 then (st, file)
  else
    ( { st with unsaved_count := 0 },
      if writeFails then file else some (.modern st.cache st.cache_timestamps) )

/-- Outcome of the `while True` fetch loop in `Dota2Cache.get`. -/
inductive RetryOutcome (V : Type) where
  | success (body : V) (sleeps : Nat) (remaining : List (Nat × V))
  | httpError (status : Nat) (sleeps : Nat)
  | exhausted (sleeps : Nat)
deriving DecidableEq

/-- The retry loop: statuses 429 and 500 sleep 10 seconds and retry; any
other status of 400 or above raises (`response.raise_for_status()`); other
statuses succeed. `exhausted` marks running out of scripted responses while
still retrying (the unbounded-retry case). -/
def retryLoop {V : Type} : List (Nat × V) → Nat → RetryOutcome V
  | [], sleeps => .exhausted sleeps
  | (status, body) :: rest, sleeps =>
    if status = 429 ∨ status = 500 then retryLoop rest (sleeps + 1)
    else if 400 ≤ status then .httpError status sleeps
    else .success body sleeps rest

/-- Result of `Dota2Cache.get`: a payload together with the state and file
after the call, whether a network fetch happened, and how many backoff
sleeps occurred; or a raised HTTP error; or unbounded retrying. -/
inductive GetResult (V : Type) where
  | ok (payload : V) (st : CacheState V) (file : Option (CacheFile V)) (fetched : Bool)
      (sleeps : Nat)
  | httpError (status : Nat) (sleeps : Nat)
  | exhausted
deriving DecidableEq

/-- The fetch-and-store tail of `Dota2Cache.get`: run the retry loop, store
payload and timestamp, bump the unsaved counter, and auto-flush when the
counter is a multiple of 50. -/
def fetchAndStore {V : Type} (st : CacheState V) (url : String) (current_time : Nat)
    (responses : List (Nat × V)) (file : Option (CacheFile V)) (writeFails : Bool) :
    GetResult V :=
  match retryLoop responses 0 with
  | .success body sleeps _ =>
    let st1 : CacheState V :=
      ⟨assocSet st.cache url body, assocSet st.cache_timestamps url current_time,
        st.unsaved_count + 1⟩
    if st1.unsaved_count % 50 = 0 then
      let fl := flush st1 file writeFails
      .ok body fl.1 fl.2 true sleeps
    else
      .ok body st1 file true sleeps
  | .httpError s sleeps => .httpError s sleeps
  | .exhausted _ => .exhausted

/-- `Dota2Cache.get(url, use_cache)`: on a hit, return the cached payload when
`use_cache` is true, or when the entry has a timestamp younger than 3600
seconds; otherwise fetch, store, and possibly auto-flush. -/
def cacheGet {V : Type} (st : CacheState V) (url : String) (use_cache : Bool)
    (current_time : Nat) (responses : List (Nat × V)) (file : Option (CacheFile V))
    (writeFails : Bool) : GetResult V :=
  match assocFind st.cache url with
  | some payload =>
    if use_cache then .ok payload st file false 0
    else
      match assocFind st.cache_timestamps url with
      | some ts =>
        if current_time - ts < 3600 then .ok payload st file false 0
        else fetchAndStore st url current_time responses file writeFails
      | none => fetchAndStore st url current_time responses file writeFails
  | none => fetchAndStore st url current_time responses file writeFails

/-- URL of the match-list endpoint used by `Matches.__init__`. -/
def playerMatchesUrl (account_id : Nat) : String :=
  "https://api.opendota.com/api/players/" ++ toString account_id ++ "/matches"

/-- The cache interaction of `Matches.__init__`: `g_cache.get(url, False)` on
the account's match-list URL, followed by `g_cache.flush()`. -/
def matchesInitFetch {V : Type} (account_id : Nat) (st : CacheState V) (current_time : Nat)
    (responses : List (Nat × V)) (file : Option (CacheFile V)) (writeFails : Bool) :
    GetResult V :=
  match cacheGet st (playerMatchesUrl account_id) false current_time responses file writeFails with
  | .ok payload st1 file1 fetched sleeps =>
    let fl := flush st1 file1 writeFails
    .ok payload fl.1 fl.2 fetched sleeps
  | r => r

def SECONDS_PER_YEAR : Nat := 31536000

/-- The `Team` enum. -/
inductive Team where
  | RADIANT
  | DIRE
deriving DecidableEq

/-- Fields of a participant object inside a full match detail that the code
reads (`Player`). `account_id` is optional (anonymous players). -/
structure PlayerJson where
  account_id : Option Nat
  team_number : Nat
  hero_id : Nat
  gold_per_min : Nat
deriving DecidableEq

/-- Fields of a match-summary object that the code reads (`Match`'s
`simple_match_json`). -/
structure MatchJson where
  match_id : Nat
  start_time : Nat
  hero_id : Nat
  player_slot : Nat
  radiant_win : Bool
deriving DecidableEq

/-- `Player.get_team`. -/
def Player.get_team (p : PlayerJson) : Team :=
  if p.team_number = 0 then .RADIANT else .DIRE

/-- `Match.get_team` (from `player_slot` of the summary). -/
def Match.get_team (m : MatchJson) : Team :=
  if m.player_slot < 128 then .RADIANT else .DIRE

/-- `Match.get_winner_team`. -/
def Match.get_winner_team (m : MatchJson) : Team :=
  if m.radiant_win then .RADIANT else .DIRE

/-- A match with its resolved full-detail participant list: `players` is what
`_set_full_match_json` produces (the detail payload's `players` array, or the
empty list when the detail has none). The detail fetch itself goes through
the cache layer modelled above. -/
structure MatchData where
  simple : MatchJson
  players : List PlayerJson
deriving DecidableEq

/-- The `Matches` object: account id, the optional zero-argument cancellation
predicate (modelled as a function of how many times it has been called so
far), whether a progress callback was supplied, and the constructed match
list. -/
structure MatchesObj where
  account_id : Nat
  cancellation_check : Option (Nat → Bool)
  has_progress_callback : Bool
  match_list : List MatchData

/-- `Matches.get_matches(hero_id, seconds_ago)`: keep matches whose hero
matches (when a hero filter is given) and whose age `now - start_time` is at
most `seconds_ago` (`none` is the `float("inf")` all-time sentinel). -/
def get_matches (obj : MatchesObj) (hero_id : Option Nat) (seconds_ago : Option Nat)
    (now : Nat) : List MatchData :=
  obj.match_list.filter fun m =>
    (match hero_id with
      | none => true
      | some h => m.simple.hero_id == h)
    && (match seconds_ago with
      | none => true
      | some s => decide (now - m.simple.start_time ≤ s))

/-- One iteration body of the enemy-hero scan, minus progress/cancellation:
find the self participant (first player whose `account_id` matches), and if
present emit one `(enemy_hero_id, self_gpm, is_win)` observation per
opposing-team participant; a match without an identifiable self participant
contributes nothing. -/
def enemy_observations (self_id : Nat) (m : MatchData) : List (Nat × Nat × Bool) :=
  match m.players.find? (fun p => p.account_id == some self_id) with
  | none => []
  | some sp =>
    (m.players.filter fun p => decide (Player.get_team p ≠ Player.get_team sp)).map
      fun p =>
        (p.hero_id, sp.gold_per_min, decide (Match.get_winner_team m.simple = Player.get_team sp))

/-- Outcome of an aggregation call: a value, or the `InterruptedError` raised
by `_raise_if_cancelled`. -/
inductive AggResult (α : Type) where
  | ok (value : α)
  | cancelled
deriving DecidableEq

/-- The main loop of `get_stats_per_enemy_hero` over the filtered matches:
per match, first invoke the progress callback with `(i + 1, n)` when one is
supplied, then poll cancellation when `i % 10 == 0` (raising when the
predicate answers true), then accumulate observations. Returns the
accumulated observations (or cancellation) along with the trace of progress
invocations; `c` counts prior predicate calls. -/
def enemy_scan (self_id : Nat) (cancel : Option (Nat → Bool)) (has_progress : Bool)
    (n : Nat) : List MatchData → Nat → Nat → List (Nat × Nat × Bool) → List (Nat × Nat) →
    AggResult (List (Nat × Nat × Bool)) × List (Nat × Nat)
  | [], _, _, obs, prog => (.ok obs, prog)
  | m :: rest, i, c, obs, prog =>
    let prog1 := if has_progress then prog ++ [(i + 1, n)] else prog
    if i % 10 = 0 then
      match cancel with
      | some f =>
        if f c then (.cancelled, prog1)
        else
          enemy_scan self_id cancel has_progress n rest (i + 1) (c + 1)
            (obs ++ enemy_observations self_id m) prog1
      | none =>
        enemy_scan self_id cancel has_progress n rest (i + 1) c
          (obs ++ enemy_observations self_id m) prog1
    else
      enemy_scan self_id cancel has_progress n rest (i + 1) c
        (obs ++ enemy_observations self_id m) prog1

/-- `np.unique`: the distinct values of a list in ascending order. -/
def uniqueSorted (l : List Nat) : List Nat := l.dedup.insertionSort (· ≤ ·)

/-- One row of the per-enemy-hero statistics table. `hero_id` is the key the
row was built from (kept for stating ordering); the displayed fields carry
exact rationals where the code rounds floats to 2 decimals. -/
structure HeroStatsRow where
  hero_id : Nat
  hero_name : String
  wins : Nat
  num_matches : Nat
  win_rate : Rat
  gpm : Rat
deriving DecidableEq

/-- Build the row for one distinct enemy hero id from the observation list:
count, wins, win rate (percent), and mean of self's GPM values. `nameMap`
embeds the global `g_id_name_map` lookup. -/
def mkHeroRow (nameMap : Nat → Option String) (obs : List (Nat × Nat × Bool)) (h : Nat) :
    HeroStatsRow :=
  let rel := obs.filter fun o => o.1 == h
  let count := rel.length
  let wins := (rel.filter fun o => o.2.2).length
  { hero_id := h
    hero_name := (nameMap h).getD ("Unknown Hero (" ++ toString h ++ ")")
    wins := wins
    num_matches := count
    win_rate := if 0 < count then (wins : Rat) / (count : Rat) * 100 else 0
    gpm := ((rel.map fun o => o.2.1).sum : Rat) / (count : Rat) }

/-- `Matches.get_stats_per_enemy_hero(hero_id, seconds_ago)`: filter the
matches, return an empty table on an empty filter result, otherwise scan
(with progress and cancellation as in `enemy_scan`), make the final progress
call `(n, n)`, and emit one row per distinct enemy hero id in `np.unique`
order. The second component is the trace of progress-callback invocations. -/
def get_stats_per_enemy_hero (nameMap : Nat → Option String) (obj : MatchesObj)
    (hero_id : Option Nat) (seconds_ago : Option Nat) (now : Nat) :
    AggResult (List HeroStatsRow) × List (Nat × Nat) :=
  let ms := get_matches obj hero_id seconds_ago now
  if ms.isEmpty then (.ok [], [])
  else
    match enemy_scan obj.account_id obj.cancellation_check obj.has_progress_callback
        ms.length ms 0 0 [] [] with
    | (.cancelled, prog) => (.cancelled, prog)
    | (.ok obs, prog) =>
      let prog1 :=
        if obj.has_progress_callback then prog ++ [(ms.length, ms.length)] else prog
      if obs.isEmpty then (.ok [], prog1)
      else (.ok ((uniqueSorted (obs.map fun o => o.1)).map (mkHeroRow nameMap obs)), prog1)

/-- The id→record dictionary `{match.get_id(): match for match in ms}`: built
left to right, so a later record with the same id overwrites an earlier
one. -/
def buildDict (ms : List MatchData) : List (Nat × MatchData) :=
  ms.foldl (fun d m => assocSet d m.simple.match_id m) []

/-- `Matches.get_play_with_matches(player_id, same_team)`: build the other
account's id→match dictionary, then keep each of self's matches whose id is
in the dictionary and whose team-equality with the found match equals the
`same_team` flag, paired with that match. `others` stands for the freshly
constructed `Matches(player_id)`. -/
def get_play_with_matches (obj : MatchesObj) (others : MatchesObj) (same_team : Bool)
    (now : Nat) : AggResult (List (MatchData × MatchData)) :=
  let others_matches := get_matches others none none now
  let dict := buildDict others_matches
  .ok ((get_matches obj none none now).filterMap fun m =>
    match assocFind dict m.simple.match_id with
    | some om =>
      if decide (Match.get_team m.simple = Match.get_team om.simple) = same_team then
        some (m, om)
      else none
    | none => none)

/-- Accumulator of the `get_stats_per_player` loop. -/
structure PlayerAcc where
  teammate_wins : Nat
  teammate_count : Nat
  opponent_wins : Nat
  opponent_count : Nat
  teammate_match_ids : List Nat
  opponent_match_ids : List Nat
deriving DecidableEq

/-- One iteration of the `get_stats_per_player` loop: skip matches absent
from the other account's dictionary; otherwise classify as teammate or
opponent by team equality and accumulate count, win, and match id. -/
def per_player_step (dict : List (Nat × MatchData)) (acc : PlayerAcc) (m : MatchData) :
    PlayerAcc :=
  match assocFind dict m.simple.match_id with
  | none => acc
  | some om =>
    let is_win := decide (Match.get_winner_team m.simple = Match.get_team m.simple)
    if Match.get_team m.simple = Match.get_team om.simple then
      { acc with
        teammate_count := acc.teammate_count + 1
        teammate_match_ids := acc.teammate_match_ids ++ [m.simple.match_id]
        teammate_wins := if is_win then acc.teammate_wins + 1 else acc.teammate_wins }
    else
      { acc with
        opponent_count := acc.opponent_count + 1
        opponent_match_ids := acc.opponent_match_ids ++ [m.simple.match_id]
        opponent_wins := if is_win then acc.opponent_wins + 1 else acc.opponent_wins }

/-- One row of the per-player statistics table. -/
structure PlayerStatsRow where
  player : String
  role : String
  wins : Nat
  num_matches : Nat
  win_rate : Rat
  match_ids : String
deriving DecidableEq

/-- `'<br>'.join(map(str, ids)) if ids else 'None'`. -/
def formatMatchIds (ids : List Nat) : String :=
  if ids.isEmpty then "None" else String.intercalate "<br>" (ids.map toString)

/-- `Matches.get_stats_per_player(player_id, seconds_ago)`: scan self's
matches against the other account's match dictionary and emit one Teammate
row and one Opponent row. The `seconds_ago` argument is accepted but never
consulted by the source — both match lists are taken with the all-time
defaults of `get_matches()` — and the method contains no cancellation check,
so the result is always `ok`. `others` stands for `Matches(player_id)` and
`player_name` for the `get_player_name(player_id)` lookup. -/
def get_stats_per_player (obj : MatchesObj) (others : MatchesObj) (player_name : String)
    (seconds_ago : Option Nat) (now : Nat) : AggResult (List PlayerStatsRow) :=
  let others_matches := get_matches others none none now
  let my_matches := get_matches obj none none now
  let dict := buildDict others_matches
  let acc := my_matches.foldl (per_player_step dict) ⟨0, 0, 0, 0, [], []⟩
  .ok
    [ { player := player_name
        role := "Teammate"
        wins := acc.teammate_wins
        num_matches := acc.teammate_count
        win_rate :=
          if 0 < acc.teammate_count then
            (acc.teammate_wins : Rat) / (acc.teammate_count : Rat) * 100
          else 0
        match_ids := formatMatchIds acc.teammate_match_ids },
      { player := player_name
        role := "Opponent"
        wins := acc.opponent_wins
        num_matches := acc.opponent_count
        win_rate :=
          if 0 < acc.opponent_count then
            (acc.opponent_wins : Rat) / (acc.opponent_count : Rat) * 100
          else 0
        match_ids := formatMatchIds acc.opponent_match_ids } ]

/-- Project the row list out of an aggregation outcome (empty on
cancellation); used only to state claims about returned tables. -/
def heroRowsOf : AggResult (List HeroStatsRow) → List HeroStatsRow
  | .ok rows => rows
  | .cancelled => []

/-- Project the row list out of a per-player outcome (empty on
cancellation); used only to state claims about returned tables. -/
def playerRowsOf : AggResult (List PlayerStatsRow) → List PlayerStatsRow
  | .ok rows => rows
  | .cancelled => []

/-! ### Helper lemmas about the cache model -/

theorem assocFind_assocSet_self {κ α : Type} [DecidableEq κ] (l : List (κ × α)) (k : κ)
    (v : α) : assocFind (assocSet l k v) k = some v := by
  induction l with
  | nil => simp [assocSet, assocFind]
  | cons hd tl ih =>
    obtain ⟨k1, v1⟩ := hd
    by_cases h : k1 = k
    · simp [assocSet, assocFind, h]
    · simp [assocSet, assocFind, h, ih]

theorem flush_count_zero {V : Type} (st : CacheState V) (file : Option (CacheFile V))
    (writeFails : Bool) : (flush st file writeFails).1.unsaved_count = 0 := by
  by_cases h : st.unsaved_count = 0 <;> simp [flush, h]

theorem flush_noop {V : Type} (st : CacheState V) (file : Option (CacheFile V))
    (writeFails : Bool) (h : st.unsaved_count = 0) : flush st file writeFails = (st, file) := by
  simp [flush, h]

theorem fetchAndStore_of_success {V : Type} (st : CacheState V) (url : String) (ct : Nat)
    (responses : List (Nat × V)) (file : Option (CacheFile V)) (writeFails : Bool)
    (body : V) (sleeps : Nat) (rem : List (Nat × V))
    (h : retryLoop responses 0 = .success body sleeps rem) :
    ∃ st1 file1,
      fetchAndStore st url ct responses file writeFails = .ok body st1 file1 true sleeps
        ∧ st1.cache = assocSet st.cache url body
        ∧ st1.cache_timestamps = assocSet st.cache_timestamps url ct := by
  unfold fetchAndStore
  rw [h]
  by_cases h50 : (st.unsaved_count + 1) % 50 = 0
  · refine ⟨⟨assocSet st.cache url body, assocSet st.cache_timestamps url ct, 0⟩,
      if writeFails then file
      else some (.modern (assocSet st.cache url body) (assocSet st.cache_timestamps url ct)),
      ?_, rfl, rfl⟩
    simp [h50, flush]
  · exact ⟨⟨assocSet st.cache url body, assocSet st.cache_timestamps url ct,
      st.unsaved_count + 1⟩, file, by simp [h50], rfl, rfl⟩

theorem retryLoop_twice_429_then_200 {V : Type} (b1 b2 b : V) :
    retryLoop [(429, b1), (429, b2), (200, b)] 0 = .success b 2 [] := by
  simp [retryLoop]

/-! ### Claim C1: cache hit freshness semantics -/

/-- C1: for a URL with a cached entry, `get` with `use_cache = true` returns
the cached payload with no network access and no state change; `get` with
`use_cache = false` does the same exactly when the entry carries a timestamp
whose age is strictly below 3600 seconds; when the entry is stale or carries
no timestamp, a fetch is issued (here scripted to succeed) and the entry and
its timestamp are replaced; and a legacy-format snapshot loads with an empty
timestamp table, so all of its entries are in the no-timestamp case. -/
theorem c1_cache_freshness {V : Type} (st : CacheState V) (url : String) (payload : V)
    (current_time : Nat) (responses : List (Nat × V)) (file : Option (CacheFile V))
    (writeFails : Bool)
    (hhit : assocFind st.cache url = some payload) :
    cacheGet st url true current_time responses file writeFails
        = .ok payload st file false 0
    ∧ (∀ ts, assocFind st.cache_timestamps url = some ts → current_time - ts < 3600 →
        cacheGet st url false current_time responses file writeFails
          = .ok payload st file false 0)
    ∧ (∀ ts body rest, assocFind st.cache_timestamps url = some ts →
        ¬ current_time - ts < 3600 → responses = (200, body) :: rest →
        ∃ st1 file1,
          cacheGet st url false current_time responses file writeFails
              = .ok body st1 file1 true 0
            ∧ assocFind st1.cache url = some body
            ∧ assocFind st1.cache_timestamps url = some current_time)
    ∧ (∀ body rest, assocFind st.cache_timestamps url = none →
        responses = (200, body) :: rest →
        ∃ st1 file1,
          cacheGet st url false current_time responses file writeFails
              = .ok body st1 file1 true 0
            ∧ assocFind st1.cache url = some body
            ∧ assocFind st1.cache_timestamps url = some current_time)
    ∧ (∀ d : List (String × V),
        (initCache (some (CacheFile.legacy d))).cache = d
          ∧ (initCache (some (CacheFile.legacy d))).cache_timestamps = []) := by
  refine ⟨?_, ?_, ?_, ?_, ?_⟩
  · simp [cacheGet, hhit]
  · intro ts hts hfresh
    simp [cacheGet, hhit, hts, hfresh]
  · intro ts body rest hts hstale hresp
    subst hresp
    have hrl : retryLoop ((200, body) :: rest) 0 = .success body 0 rest := by
      simp [retryLoop]
    obtain ⟨st1, file1, heq, hc, ht⟩ :=
      fetchAndStore_of_success st url current_time ((200, body) :: rest) file writeFails
        body 0 rest hrl
    refine ⟨st1, file1, ?_, ?_, ?_⟩
    · simp [cacheGet, hhit, hts, hstale, heq]
    · rw [hc]; exact assocFind_assocSet_self _ _ _
    · rw [ht]; exact assocFind_assocSet_self _ _ _
  · intro body rest hts hresp
    subst hresp
    have hrl : retryLoop ((200, body) :: rest) 0 = .success body 0 rest := by
      simp [retryLoop]
    obtain ⟨st1, file1, heq, hc, ht⟩ :=
      fetchAndStore_of_success st url current_time ((200, body) :: rest) file writeFails
        body 0 rest hrl
    refine ⟨st1, file1, ?_, ?_, ?_⟩
    · simp [cacheGet, hhit, hts, heq]
    · rw [hc]; exact assocFind_assocSet_self _ _ _
    · rw [ht]; exact assocFind_assocSet_self _ _ _
  · intro d
    exact ⟨rfl, rfl⟩

def c1state : CacheState Nat := ⟨[("u", 5)], [("u", 100)], 0⟩

/-- C1 witness: concrete fresh hit returned from cache with no fetch. -/
theorem c1_cache_freshness_witness :
    cacheGet c1state "u" true 200 ([] : List (Nat × Nat)) none false
      = .ok 5 c1state none false 0 :=
  (c1_cache_freshness c1state "u" 5 200 [] none false rfl).1

/-! ### Claim C2: retry policy -/

/-- C2: statuses 429 and 500 are retried (one more backoff sleep, rest of the
response script consumed); any other status of 400 or above fails immediately
with an error carrying that status and consumes nothing further; statuses
below 400 succeed at once; and a miss fetched against the response script
{429, 429, 200} returns exactly the final payload after exactly two backoff
sleeps, with no surfaced error. -/
theorem c2_retry_policy {V : Type} (responses : List (Nat × V)) (n : Nat) :
    (∀ (s : Nat) (body : V), s = 429 ∨ s = 500 →
        retryLoop ((s, body) :: responses) n = retryLoop responses (n + 1))
    ∧ (∀ (s : Nat) (body : V), 400 ≤ s → s ≠ 429 → s ≠ 500 →
        retryLoop ((s, body) :: responses) n = .httpError s n)
    ∧ (∀ (s : Nat) (body : V), s < 400 →
        retryLoop ((s, body) :: responses) n = .success body n responses)
    ∧ (∀ (st : CacheState V) (url : String) (ct : Nat) (file : Option (CacheFile V))
        (writeFails : Bool) (b1 b2 b : V),
        assocFind st.cache url = none →
        ∃ st1 file1,
          cacheGet st url true ct [(429, b1), (429, b2), (200, b)] file writeFails
            = .ok b st1 file1 true 2) := by
  refine ⟨?_, ?_, ?_, ?_⟩
  · intro s body h
    simp [retryLoop, h]
  · intro s body h400 h429 h500
    have hretry : ¬ (s = 429 ∨ s = 500) := by
      rintro (h | h) <;> simp_all
    simp [retryLoop, hretry, h400]
  · intro s body h
    have hretry : ¬ (s = 429 ∨ s = 500) := by omega
    have h400 : ¬ 400 ≤ s := by omega
    simp [retryLoop, hretry, h400]
  · intro st url ct file writeFails b1 b2 b hmiss
    obtain ⟨st1, file1, heq, -, -⟩ :=
      fetchAndStore_of_success st url ct [(429, b1), (429, b2), (200, b)] file writeFails
        b 2 [] (retryLoop_twice_429_then_200 b1 b2 b)
    exact ⟨st1, file1, by simp [cacheGet, hmiss, heq]⟩

/-- C2 witness: status 404 at the head of the script fails immediately with
an error carrying 404 and no backoff sleep. -/
theorem c2_retry_policy_witness :
    retryLoop [((404 : Nat), (0 : Nat))] 0 = .httpError 404 0 :=
  (c2_retry_policy ([] : List (Nat × Nat)) 0).2.1 404 0 (by norm_num) (by norm_num)
    (by norm_num)

/-! ### Claim C3: flush round-trip -/

/-- C3: with at least one unsaved write pending and a successful write, the
file persisted by `flush` reloads to exactly the in-memory payload mapping
and the in-memory timestamp mapping. -/
theorem c3_flush_roundtrip {V : Type} (st : CacheState V) (file : Option (CacheFile V))
    (h : st.unsaved_count ≠ 0) :
    load_cache (flush st file false).2 = (st.cache, st.cache_timestamps) := by
  simp [flush, h, load_cache]

/-- C3 witness: concrete round-trip through `flush` and `load_cache`. -/
theorem c3_flush_roundtrip_witness :
    load_cache (flush (⟨[("u", 5)], [("u", 100)], 1⟩ : CacheState Nat) none false).2
      = ([("u", 5)], [("u", 100)]) :=
  c3_flush_roundtrip ⟨[("u", 5)], [("u", 100)], 1⟩ none (by norm_num)

/-! ### Claim C10: flush resets the unsaved-write counter -/

/-- C10: after any `flush` on a state with pending writes the unsaved-write
counter is 0 whether or not the write failed; an immediately repeated
`flush` is a no-op (state and file both unchanged); and after the counter
is reset, a successful fetching `get` whose incremented counter is still
below 50 does not attempt a flush (the persisted file is unchanged) and
just increments the counter. -/
theorem c10_flush_resets_counter {V : Type} (st : CacheState V)
    (file : Option (CacheFile V)) (writeFails : Bool) (h : st.unsaved_count ≠ 0) :
    (flush st file writeFails).1.unsaved_count = 0
    ∧ (∀ (f2 : Option (CacheFile V)) (wf2 : Bool),
        flush (flush st file writeFails).1 f2 wf2 = ((flush st file writeFails).1, f2))
    ∧ (∀ (st2 : CacheState V) (url : String) (ct : Nat) (body : V)
        (rest : List (Nat × V)) (file2 : Option (CacheFile V)) (wf2 : Bool),
        assocFind st2.cache url = none → st2.unsaved_count + 1 < 50 →
        ∃ st3, cacheGet st2 url true ct ((200, body) :: rest) file2 wf2
            = .ok body st3 file2 true 0
          ∧ st3.unsaved_count = st2.unsaved_count + 1) := by
  refine ⟨flush_count_zero st file writeFails, ?_, ?_⟩
  · intro f2 wf2
    exact flush_noop _ f2 wf2 (flush_count_zero st file writeFails)
  · intro st2 url ct body rest file2 wf2 hmiss hlt
    have h50 : ¬ (st2.unsaved_count + 1) % 50 = 0 := by
      rw [Nat.mod_eq_of_lt hlt]; omega
    have hrl : retryLoop ((200, body) :: rest) 0 = .success body 0 rest := by
      simp [retryLoop]
    refine ⟨⟨assocSet st2.cache url body, assocSet st2.cache_timestamps url ct,
      st2.unsaved_count + 1⟩, ?_, rfl⟩
    simp [cacheGet, hmiss, fetchAndStore, hrl, h50]

/-- C10 witness: a failed flush on a one-write state still resets the
counter to 0. -/
theorem c10_flush_resets_counter_witness :
    (flush (⟨[("u", 5)], [("u", 100)], 1⟩ : CacheState Nat) none true).1.unsaved_count = 0 :=
  (c10_flush_resets_counter ⟨[("u", 5)], [("u", 100)], 1⟩ none true (by norm_num)).1

/-! ### Claim C9: match-list construction and the cache -/

def c9state : CacheState Nat := ⟨[(playerMatchesUrl 1, 42)], [(playerMatchesUrl 1, 5000)], 0⟩

/-- C9 counterexample: the match-list URL for account 1 is cached with a
timestamp 100 seconds old; constructing the `Matches` object returns the
cached payload with no network fetch (`fetched = false`), so a cached copy
is returned, contrary to the claim that construction always re-fetches. -/
theorem c9_counterexample :
    matchesInitFetch 1 c9state 5100 ([] : List (Nat × Nat)) none false
      = .ok 42 c9state none false 0 := by
  decide

/-- C9 amended: construction fetches the match list with `use_cache = false`,
so a cached entry younger than 3600 seconds is returned with no network
fetch; when the entry is stale, has no timestamp, or is absent, a fresh HTTP
fetch is issued; and in every case `flush()` runs afterwards, leaving the
unsaved-write counter at 0. -/
theorem c9_construction_fetch {V : Type} (account_id : Nat) (st : CacheState V) (ct : Nat)
    (responses : List (Nat × V)) (file : Option (CacheFile V)) (writeFails : Bool)
    (payload : V)
    (hhit : assocFind st.cache (playerMatchesUrl account_id) = some payload) :
    (∀ ts, assocFind st.cache_timestamps (playerMatchesUrl account_id) = some ts →
        ct - ts < 3600 →
        matchesInitFetch account_id st ct responses file writeFails
          = .ok payload (flush st file writeFails).1 (flush st file writeFails).2 false 0)
    ∧ (∀ ts body rest,
        assocFind st.cache_timestamps (playerMatchesUrl account_id) = some ts →
        ¬ ct - ts < 3600 → responses = (200, body) :: rest →
        ∃ st1 file1, matchesInitFetch account_id st ct responses file writeFails
            = .ok body st1 file1 true 0 ∧ st1.unsaved_count = 0)
    ∧ (∀ body rest,
        assocFind st.cache_timestamps (playerMatchesUrl account_id) = none →
        responses = (200, body) :: rest →
        ∃ st1 file1, matchesInitFetch account_id st ct responses file writeFails
            = .ok body st1 file1 true 0 ∧ st1.unsaved_count = 0)
    ∧ (∀ (st2 : CacheState V) (body : V) (rest : List (Nat × V)),
        assocFind st2.cache (playerMatchesUrl account_id) = none →
        ∃ st1 file1,
          matchesInitFetch account_id st2 ct ((200, body) :: rest) file writeFails
            = .ok body st1 file1 true 0 ∧ st1.unsaved_count = 0) := by
  have hrl : ∀ (body : V) (rest : List (Nat × V)),
      retryLoop ((200, body) :: rest) 0 = .success body 0 rest := by
    intro body rest; simp [retryLoop]
  refine ⟨?_, ?_, ?_, ?_⟩
  · intro ts hts hfresh
    simp [matchesInitFetch, cacheGet, hhit, hts, hfresh]
  · intro ts body rest hts hstale hresp
    subst hresp
    obtain ⟨st1, file1, heq, -, -⟩ :=
      fetchAndStore_of_success st (playerMatchesUrl account_id) ct _ file writeFails
        body 0 rest (hrl body rest)
    refine ⟨(flush st1 file1 writeFails).1, (flush st1 file1 writeFails).2, ?_,
      flush_count_zero st1 file1 writeFails⟩
    simp [matchesInitFetch, cacheGet, hhit, hts, hstale, heq]
  · intro body rest hts hresp
    subst hresp
    obtain ⟨st1, file1, heq, -, -⟩ :=
      fetchAndStore_of_success st (playerMatchesUrl account_id) ct _ file writeFails
        body 0 rest (hrl body rest)
    refine ⟨(flush st1 file1 writeFails).1, (flush st1 file1 writeFails).2, ?_,
      flush_count_zero st1 file1 writeFails⟩
    simp [matchesInitFetch, cacheGet, hhit, hts, heq]
  · intro st2 body rest hmiss
    obtain ⟨st1, file1, heq, -, -⟩ :=
      fetchAndStore_of_success st2 (playerMatchesUrl account_id) ct _ file writeFails
        body 0 rest (hrl body rest)
    refine ⟨(flush st1 file1 writeFails).1, (flush st1 file1 writeFails).2, ?_,
      flush_count_zero st1 file1 writeFails⟩
    simp [matchesInitFetch, cacheGet, hmiss, heq]

/-- C9 witness: concrete fresh cached match list returned without a fetch,
with `flush()` run afterwards. -/
theorem c9_construction_fetch_witness :
    matchesInitFetch 1 c9state 5100 ([] : List (Nat × Nat)) none false
      = .ok 42 (flush c9state none false).1 (flush c9state none false).2 false 0 :=
  (c9_construction_fetch 1 c9state 5100 [] none false 42 (by decide)).1 5000 (by decide)
    (by norm_num)

/-! ### Helper lemmas about the aggregation model -/

theorem assocFind_assocSet {κ α : Type} [DecidableEq κ] (l : List (κ × α)) (k0 : κ)
    (v0 : α) (k : κ) :
    assocFind (assocSet l k0 v0) k = if k0 = k then some v0 else assocFind l k := by
  induction l with
  | nil => simp [assocSet, assocFind]
  | cons hd tl ih =>
    obtain ⟨k1, v1⟩ := hd
    by_cases h1 : k1 = k0
    · subst h1
      by_cases h2 : k1 = k <;> simp [assocSet, assocFind, h2]
    · by_cases h2 : k1 = k
      · subst h2
        have h3 : ¬ k0 = k1 := fun h => h1 h.symm
        simp [assocSet, assocFind, h1, h3]
      · simp [assocSet, assocFind, h1, h2, ih]

theorem buildDict_find_some (ms : List MatchData) (k : Nat) (om : MatchData) :
    ∀ d0 : List (Nat × MatchData),
      assocFind (ms.foldl (fun d m => assocSet d m.simple.match_id m) d0) k = some om →
      (om ∈ ms ∧ om.simple.match_id = k) ∨ assocFind d0 k = some om := by
  induction ms with
  | nil => intro d0 h; exact Or.inr h
  | cons m rest ih =>
    intro d0 h
    rcases ih (assocSet d0 m.simple.match_id m) h with hmem | hfind
    · exact Or.inl ⟨List.mem_cons_of_mem m hmem.1, hmem.2⟩
    · rw [assocFind_assocSet] at hfind
      by_cases hk : m.simple.match_id = k
      · rw [if_pos hk] at hfind
        injection hfind with hinj
        subst hinj
        exact Or.inl ⟨List.mem_cons_self _ _, hk⟩
      · rw [if_neg hk] at hfind
        exact Or.inr hfind

theorem buildDict_find_untouched (ms : List MatchData) (k : Nat)
    (hk : ∀ m ∈ ms, m.simple.match_id ≠ k) :
    ∀ d0 : List (Nat × MatchData),
      assocFind (ms.foldl (fun d m => assocSet d m.simple.match_id m) d0) k
        = assocFind d0 k := by
  induction ms with
  | nil => intro d0; rfl
  | cons m rest ih =>
    intro d0
    rw [List.foldl_cons, ih (fun m hm => hk m (List.mem_cons_of_mem _ hm)),
      assocFind_assocSet, if_neg (hk m (List.mem_cons_self m rest))]

theorem buildDict_find_nodup (ms : List MatchData) (om : MatchData)
    (hn : (ms.map fun m => m.simple.match_id).Nodup) (hmem : om ∈ ms) :
    ∀ d0 : List (Nat × MatchData),
      assocFind (ms.foldl (fun d m => assocSet d m.simple.match_id m) d0)
          om.simple.match_id = some om := by
  induction ms with
  | nil => cases hmem
  | cons m rest ih =>
    intro d0
    rw [List.map_cons, List.nodup_cons] at hn
    rcases List.mem_cons.mp hmem with heq | hmem2
    · subst heq
      have hnot : ∀ m2 ∈ rest, m2.simple.match_id ≠ om.simple.match_id := by
        intro m2 hm2 habs
        exact hn.1 (habs ▸ List.mem_map_of_mem (fun m => m.simple.match_id) hm2)
      rw [List.foldl_cons, buildDict_find_untouched rest _ hnot, assocFind_assocSet,
        if_pos rfl]
    · rw [List.foldl_cons]
      exact ih hn.2 hmem2 _

theorem map_fst_filterMap_sublist {α β : Type} (g : α → Option (α × β))
    (hg : ∀ a p, g a = some p → p.1 = a) (l : List α) :
    List.Sublist ((l.filterMap g).map Prod.fst) l := by
  induction l with
  | nil => simp
  | cons a rest ih =>
    cases hga : g a with
    | none => rw [List.filterMap_cons, hga]; exact ih.cons a
    | some p =>
      rw [List.filterMap_cons, hga, List.map_cons, hg a p hga]
      exact ih.cons₂ a

theorem uniqueSorted_pairwise_lt (l : List Nat) :
    (uniqueSorted l).Pairwise (· < ·) := by
  have hs : (uniqueSorted l).Sorted (· ≤ ·) := List.sorted_insertionSort _ _
  have hn : (uniqueSorted l).Nodup :=
    (List.perm_insertionSort _ _).nodup_iff.mpr l.nodup_dedup
  exact (hs.and hn).imp fun h => lt_of_le_of_ne h.1 h.2

theorem enemy_scan_none (self_id : Nat) (hp : Bool) (n : Nat) :
    ∀ (ms : List MatchData) (i c : Nat) (obs : List (Nat × Nat × Bool))
      (prog : List (Nat × Nat)),
      enemy_scan self_id none hp n ms i c obs prog
        = (.ok (obs ++ (ms.map (enemy_observations self_id)).flatten),
           prog ++ if hp then (List.range' (i + 1) ms.length).map fun j => (j, n) else []) := by
  intro ms
  induction ms with
  | nil => intro i c obs prog; cases hp <;> simp [enemy_scan]
  | cons m rest ih =>
    intro i c obs prog
    have hstep : enemy_scan self_id none hp n (m :: rest) i c obs prog
        = enemy_scan self_id none hp n rest (i + 1) c (obs ++ enemy_observations self_id m)
            (if hp then prog ++ [(i + 1, n)] else prog) := by
      by_cases h10 : i % 10 = 0 <;> simp [enemy_scan, h10]
    rw [hstep, ih]
    cases hp <;>
      simp [List.length_cons, List.range'_succ, List.append_assoc]

/-! ### Concrete inputs used by counterexamples and witnesses -/

/-- A self participant: account 7, team RADIANT, hero 10, 400 GPM. -/
def selfP : PlayerJson := ⟨some 7, 0, 10, 400⟩

/-- An anonymous opposing participant on team DIRE playing hero `h`. -/
def enemyP (h : Nat) : PlayerJson := ⟨none, 1, h, 300⟩

/-- A radiant-won match with id `mid` where self (slot 0) faces enemy hero
`h`. -/
def mkM (mid h : Nat) : MatchData := ⟨⟨mid, 0, 10, 0, true⟩, [selfP, enemyP h]⟩

def c4obj : MatchesObj := ⟨7, none, false, [mkM 1 2, mkM 2 2, mkM 3 1]⟩

/-! ### Claim C4: ordering of the per-enemy-hero table -/

/-- C4 counterexample: with enemy hero 2 seen in two matches and enemy hero 1
in one, the returned rows carry match counts `[1, 2]` — the row order follows
`np.unique` (ascending hero id), not descending match count. -/
theorem c4_counterexample :
    ((heroRowsOf (get_stats_per_enemy_hero (fun _ => none) c4obj none none 0).1).map
        fun r => r.num_matches) = [1, 2]
    ∧ ¬ List.Pairwise (fun a b : Nat => b ≤ a)
        ((heroRowsOf (get_stats_per_enemy_hero (fun _ => none) c4obj none none 0).1).map
          fun r => r.num_matches) := by
  constructor
  · decide
  · intro hp
    have h12 : (1 : Nat) ≥ 2 := by
      have he : ((heroRowsOf (get_stats_per_enemy_hero (fun _ => none) c4obj none none 0).1).map
          fun r => r.num_matches) = [1, 2] := by decide
      rw [he] at hp
      exact List.rel_of_pairwise_cons hp (List.mem_singleton.mpr rfl)
    omega

/-- C4 amended: the rows of the per-enemy-hero table are ordered by strictly
ascending enemy hero id (the `np.unique` enumeration order); they are not
sorted by match count. -/
theorem c4_rows_sorted_by_hero_id (nameMap : Nat → Option String) (obj : MatchesObj)
    (hero_id : Option Nat) (seconds_ago : Option Nat) (now : Nat) :
    (heroRowsOf (get_stats_per_enemy_hero nameMap obj hero_id seconds_ago now).1).Pairwise
      (fun a b => a.hero_id < b.hero_id) := by
  unfold get_stats_per_enemy_hero
  by_cases hempty : (get_matches obj hero_id seconds_ago now).isEmpty
  · simp [hempty, heroRowsOf]
  · rcases hscan : enemy_scan obj.account_id obj.cancellation_check obj.has_progress_callback
        (get_matches obj hero_id seconds_ago now).length
        (get_matches obj hero_id seconds_ago now) 0 0 [] [] with ⟨r, prog⟩
    cases r with
    | cancelled => simp [hempty, hscan, heroRowsOf]
    | ok obs =>
      by_cases hobs : obs.isEmpty
      · simp [hempty, hscan, hobs, heroRowsOf]
      · have hpw := uniqueSorted_pairwise_lt (obs.map fun o => o.1)
        simp only [hempty, Bool.false_eq_true, if_neg, hscan, hobs, heroRowsOf]
        simp only [if_false]
        rw [List.pairwise_map]
        exact hpw.imp fun h => h

/-! ### Claim C8: progress-callback invocations -/

def c8obj : MatchesObj := ⟨7, none, true, [mkM 1 2]⟩

/-- C8 counterexample: scanning a single match with a progress callback
produces two invocations `[(1, 1), (1, 1)]` — the per-match call and the
unconditional final call coincide — so the callback is not invoked exactly
once per processed match and `completed` is not strictly increasing across
all invocations. -/
theorem c8_counterexample :
    (get_stats_per_enemy_hero (fun _ => none) c8obj none none 0).2 = [(1, 1), (1, 1)]
    ∧ ¬ List.Pairwise (fun a b : Nat × Nat => a.1 < b.1) [(1, 1), (1, 1)] := by
  constructor
  · decide
  · intro hp
    exact absurd (List.rel_of_pairwise_cons hp (List.mem_singleton.mpr rfl)) (by omega)

/-- C8 amended: with a progress callback supplied, no cancellation predicate,
and a nonempty filtered match list of length `n`, the callback trace is
`(1, n), (2, n), …, (n, n)` followed by one more final `(n, n)`: `n + 1`
invocations in total, the first `n` strictly increasing in `completed`, the
final one repeating `completed = total`. -/
theorem c8_progress_trace (nameMap : Nat → Option String) (obj : MatchesObj)
    (hero_id : Option Nat) (seconds_ago : Option Nat) (now : Nat)
    (hcancel : obj.cancellation_check = none)
    (hprog : obj.has_progress_callback = true)
    (hne : get_matches obj hero_id seconds_ago now ≠ []) :
    (get_stats_per_enemy_hero nameMap obj hero_id seconds_ago now).2
        = ((List.range' 1 (get_matches obj hero_id seconds_ago now).length).map
            fun j => (j, (get_matches obj hero_id seconds_ago now).length))
          ++ [((get_matches obj hero_id seconds_ago now).length,
               (get_matches obj hero_id seconds_ago now).length)]
    ∧ (get_stats_per_enemy_hero nameMap obj hero_id seconds_ago now).2.length
        = (get_matches obj hero_id seconds_ago now).length + 1
    ∧ List.Pairwise (fun a b : Nat × Nat => a.1 < b.1)
        ((List.range' 1 (get_matches obj hero_id seconds_ago now).length).map
          fun j => (j, (get_matches obj hero_id seconds_ago now).length))
    ∧ (get_stats_per_enemy_hero nameMap obj hero_id seconds_ago now).2.getLast?
        = some ((get_matches obj hero_id seconds_ago now).length,
                (get_matches obj hero_id seconds_ago now).length) := by
  have hempty : (get_matches obj hero_id seconds_ago now).isEmpty = false :=
    Bool.eq_false_iff.mpr fun h => hne (List.isEmpty_iff.mp h)
  have hscan := enemy_scan_none obj.account_id true
    (get_matches obj hero_id seconds_ago now).length
    (get_matches obj hero_id seconds_ago now) 0 0 [] []
  have htrace : (get_stats_per_enemy_hero nameMap obj hero_id seconds_ago now).2
      = ((List.range' 1 (get_matches obj hero_id seconds_ago now).length).map
          fun j => (j, (get_matches obj hero_id seconds_ago now).length))
        ++ [((get_matches obj hero_id seconds_ago now).length,
             (get_matches obj hero_id seconds_ago now).length)] := by
    unfold get_stats_per_enemy_hero
    rw [hcancel, hprog] at *
    simp only [hempty, Bool.false_eq_true, if_false, hscan]
    by_cases hobs :
        (((get_matches obj hero_id seconds_ago now).map
          (enemy_observations obj.account_id)).flatten).isEmpty <;>
      simp [hobs]
  refine ⟨htrace, ?_, ?_, ?_⟩
  · rw [htrace]
    simp
  · rw [List.pairwise_map]
    exact (List.pairwise_lt_range' 1 _).imp fun h => h
  · rw [htrace]
    exact List.getLast?_concat _

/-- C8 witness: the amended trace shape at a concrete one-match input. -/
theorem c8_progress_trace_witness :
    (get_stats_per_enemy_hero (fun _ => none) c8obj none none 0).2
        = ((List.range' 1 (get_matches c8obj none none 0).length).map
            fun j => (j, (get_matches c8obj none none 0).length))
          ++ [((get_matches c8obj none none 0).length, (get_matches c8obj none none 0).length)] :=
  (c8_progress_trace (fun _ => none) c8obj none none 0 rfl rfl (by decide)).1

/-! ### Claim C7: cancellation polling -/

/-- A cancellation predicate that is already set when first polled. -/
def alwaysCancel : Nat → Bool := fun _ => true

/-- Twenty shared matches of self on team RADIANT, all radiant wins. -/
def c7matches : List MatchData :=
  (List.range 20).map fun k => ⟨⟨k, 0, 1, 0, true⟩, []⟩

def c7obj : MatchesObj := ⟨7, some alwaysCancel, false, c7matches⟩

def c7other : MatchesObj := ⟨8, none, false, c7matches⟩

/-- C7 counterexample: with an always-true cancellation predicate supplied to
the `Matches` object, a per-player scan over 20 shared records — more than
enough for a poll every 10 records — still completes and returns the full
table (20 teammate matches), never a Cancelled outcome: this scan performs no
cancellation checks at all. -/
theorem c7_counterexample :
    c7obj.cancellation_check = some alwaysCancel
    ∧ (get_matches c7obj none none 0).length = 20
    ∧ get_stats_per_player c7obj c7other "P" (some SECONDS_PER_YEAR) 0
        ≠ AggResult.cancelled
    ∧ ((playerRowsOf (get_stats_per_player c7obj c7other "P" (some SECONDS_PER_YEAR) 0)).map
        fun r => r.num_matches) = [20, 0] :=
  ⟨rfl, by decide, by decide, by decide⟩

/-- C7 amended: only the per-enemy-hero scan polls cancellation, at record
indices 0, 10, 20, …; when the predicate answers true there the scan is
abandoned with a Cancelled outcome and no rows. The per-player and play-with
scans never consult the predicate and always return an ok table. -/
theorem c7_cancellation_scope (nameMap : Nat → Option String) (obj : MatchesObj)
    (hero_id : Option Nat) (seconds_ago : Option Nat) (now : Nat) (f : Nat → Bool)
    (hc : obj.cancellation_check = some f) (hf : f 0 = true)
    (hne : get_matches obj hero_id seconds_ago now ≠ []) :
    (get_stats_per_enemy_hero nameMap obj hero_id seconds_ago now).1 = .cancelled
    ∧ (∀ (others : MatchesObj) (pname : String) (sa : Option Nat) (now2 : Nat),
        ∃ rows, get_stats_per_player obj others pname sa now2 = .ok rows)
    ∧ (∀ (others : MatchesObj) (same_team : Bool) (now2 : Nat),
        ∃ pairs, get_play_with_matches obj others same_team now2 = .ok pairs) := by
  refine ⟨?_, fun _ _ _ _ => ⟨_, rfl⟩, fun _ _ _ => ⟨_, rfl⟩⟩
  have hempty : (get_matches obj hero_id seconds_ago now).isEmpty = false :=
    Bool.eq_false_iff.mpr fun h => hne (List.isEmpty_iff.mp h)
  unfold get_stats_per_enemy_hero
  rcases hgm : get_matches obj hero_id seconds_ago now with - | ⟨m, rest⟩
  · exact absurd hgm hne
  · rw [hgm] at hempty
    have hstep : enemy_scan obj.account_id obj.cancellation_check obj.has_progress_callback
        (m :: rest).length (m :: rest) 0 0 [] []
        = (.cancelled,
           if obj.has_progress_callback then ([] : List (Nat × Nat)) ++ [(1, (m :: rest).length)]
           else []) := by
      simp [enemy_scan, hc, hf]
    simp only [hempty, Bool.false_eq_true, if_false, hstep]

/-- C7 witness: with the always-true predicate and a nonempty match list the
per-enemy-hero scan is cancelled. -/
theorem c7_cancellation_scope_witness :
    (get_stats_per_enemy_hero (fun _ => none) c7obj none none 0).1 = .cancelled :=
  (c7_cancellation_scope (fun _ => none) c7obj none none 0 alwaysCancel rfl rfl
    (by decide)).1

/-! ### Claim C5: per-player statistics ignore the age filter -/

def c5obj : MatchesObj := ⟨7, none, false, [mkM 9 2]⟩

def c5other : MatchesObj := ⟨8, none, false, [mkM 9 2]⟩

/-- C5: the code bug at a concrete input. The single shared match started at
time 0 and is queried at `now = 2 * SECONDS_PER_YEAR` with
`maxAge = SECONDS_PER_YEAR`, so its age exceeds `maxAge` and the age filter
excludes it (second conjunct); yet `get_stats_per_player` still counts it —
one teammate match, one teammate win, and its id in the Match IDs column —
because the method never applies `seconds_ago`. -/
theorem c5_code_bug :
    ((playerRowsOf (get_stats_per_player c5obj c5other "P" (some SECONDS_PER_YEAR)
          (2 * SECONDS_PER_YEAR))).map
        fun r => (r.role, r.num_matches, r.wins, r.match_ids))
      = [("Teammate", 1, 1, "9"), ("Opponent", 0, 0, "None")]
    ∧ get_matches c5obj none (some SECONDS_PER_YEAR) (2 * SECONDS_PER_YEAR) = [] := by
  constructor
  · decide
  · decide

/-! ### Claim C6: the play-with join -/

/-- C6: assuming the other account's match ids are distinct (match id is the
record identity), `get_play_with_matches` returns an ok list of pairs such
that every pair consists of one of self's matches and the other account's
match with the same id whose team-equality with it equals the `same_team`
flag (soundness); the pairs keep the order of self's match list (the first
components form a sublist of it); and every self match for which the other
account has a matching-id record satisfying the team condition does appear
paired with it (completeness). -/
theorem c6_play_with (obj others : MatchesObj) (same_team : Bool) (now : Nat)
    (hn : ((get_matches others none none now).map fun m => m.simple.match_id).Nodup) :
    ∃ l, get_play_with_matches obj others same_team now = .ok l
      ∧ (∀ p ∈ l, p.1 ∈ get_matches obj none none now
          ∧ p.2 ∈ get_matches others none none now
          ∧ p.2.simple.match_id = p.1.simple.match_id
          ∧ decide (Match.get_team p.1.simple = Match.get_team p.2.simple) = same_team)
      ∧ List.Sublist (l.map Prod.fst) (get_matches obj none none now)
      ∧ (∀ m ∈ get_matches obj none none now, ∀ om ∈ get_matches others none none now,
          om.simple.match_id = m.simple.match_id →
          decide (Match.get_team m.simple = Match.get_team om.simple) = same_team →
          (m, om) ∈ l) := by
  refine ⟨_, rfl, ?_, ?_, ?_⟩
  · intro p hp
    rw [List.mem_filterMap] at hp
    obtain ⟨m, hm, hgm⟩ := hp
    cases hfind : assocFind (buildDict (get_matches others none none now))
        m.simple.match_id with
    | none => rw [hfind] at hgm; cases hgm
    | some om =>
      simp only [hfind] at hgm
      by_cases hcond :
          decide (Match.get_team m.simple = Match.get_team om.simple) = same_team
      · rw [if_pos hcond] at hgm
        injection hgm with hpeq
        subst hpeq
        rcases buildDict_find_some (get_matches others none none now)
            m.simple.match_id om [] hfind with hmem | hbase
        · exact ⟨hm, hmem.1, hmem.2, hcond⟩
        · cases hbase
      · rw [if_neg hcond] at hgm
        cases hgm
  · refine map_fst_filterMap_sublist _ ?_ _
    intro a p h
    cases hfind : assocFind (buildDict (get_matches others none none now))
        a.simple.match_id with
    | none => rw [hfind] at h; cases h
    | some om =>
      simp only [hfind] at h
      by_cases hcond :
          decide (Match.get_team a.simple = Match.get_team om.simple) = same_team
      · rw [if_pos hcond] at h
        injection h with hpeq
        rw [← hpeq]
      · rw [if_neg hcond] at h
        cases h
  · intro m hm om hom hid hcond
    rw [List.mem_filterMap]
    refine ⟨m, hm, ?_⟩
    have hfind : assocFind (buildDict (get_matches others none none now))
        m.simple.match_id = some om := by
      rw [← hid]
      exact buildDict_find_nodup (get_matches others none none now) om hn hom []
    simp [hfind, hcond]

def c6self : MatchesObj := ⟨7, none, false, [⟨⟨555, 0, 1, 0, true⟩, []⟩, ⟨⟨777, 0, 1, 0, true⟩, []⟩]⟩

def c6other : MatchesObj :=
  ⟨8, none, false, [⟨⟨555, 0, 5, 10, true⟩, []⟩, ⟨⟨777, 0, 5, 200, true⟩, []⟩]⟩

/-- C6 witness: two accounts sharing match 555 on the same team and match 777
on opposite teams, with distinct ids on the other side. -/
theorem c6_play_with_witness :
    ((get_matches c6other none none 0).map fun m => m.simple.match_id).Nodup
    ∧ ∃ l, get_play_with_matches c6self c6other true 0 = .ok l
      ∧ (∀ p ∈ l, p.1 ∈ get_matches c6self none none 0
          ∧ p.2 ∈ get_matches c6other none none 0
          ∧ p.2.simple.match_id = p.1.simple.match_id
          ∧ decide (Match.get_team p.1.simple = Match.get_team p.2.simple) = true)
      ∧ List.Sublist (l.map Prod.fst) (get_matches c6self none none 0)
      ∧ (∀ m ∈ get_matches c6self none none 0, ∀ om ∈ get_matches c6other none none 0,
          om.simple.match_id = m.simple.match_id →
          decide (Match.get_team m.simple = Match.get_team om.simple) = true →
          (m, om) ∈ l) :=
  ⟨by decide, c6_play_with c6self c6other true 0 (by decide)⟩

end Dota
